import Mathlib

/-!
Verification development for the bucket-antivirus scan-and-propagate pipeline
(`scan.py`).  The Python handler is shallowly embedded as pure Lean functions:

* event decoding (`event_object`, `event_webhook`) becomes `Res`-returning
  functions over a structured `Event`;
* the side-effecting pipeline (`lambda_handler`) becomes a trace-producing
  function: the sequence of external calls the handler would attempt is
  computed (`handlerOps`) and executed against an oracle `World` that says
  which external calls succeed and which raise; execution stops at the first
  raising call, exactly as an uncaught Python exception would;
* the tag sink (`set_av_tags`) becomes a pure function on tag lists
  (`set_av_tags_tagset`);
* Python 2 `urllib.unquote_plus` and `str.replace(':service', 'antivirus')`
  are embedded character-by-character (`unquote_plus`, `replace_service`).
-/

/-! ## Percent decoding (Python 2 `urllib.unquote` / `unquote_plus`) -/

/-- Whether a character is one of the hex digits Python 2's `_hextochr`
table accepts (both cases). -/
def isHexDig (c : Char) : Bool :=
  c.isDigit || ('a' ≤ c && c ≤ 'f') || ('A' ≤ c && c ≤ 'F')

/-- Numeric value of a hex digit character (Python `int(c, 16)` on a single
hex digit; only used under an `isHexDig` guard). -/
def hexVal (c : Char) : Nat :=
  if c.isDigit then c.toNat - 48
  else if 'a' ≤ c then c.toNat - 87
  else c.toNat - 55

/-- Python 2 `urllib.unquote` on a character list: split on `%` and decode a
two-hex-digit escape after each `%`; a `%` not followed by two hex digits is
kept verbatim. -/
def unquote1 : List Char → List Char
  | [] => []
  | '%' :: a :: b :: rest =>
      if isHexDig a && isHexDig b then
        Char.ofNat (16 * hexVal a + hexVal b) :: unquote1 rest
      else '%' :: unquote1 (a :: b :: rest)
  | '%' :: rest => '%' :: unquote1 rest
  | c :: rest => c :: unquote1 rest

/-- Python 2 `urllib.unquote_plus`: first replace every `+` with a space,
then percent-decode (`scan.py` uses this for both the key and the webhook). -/
def unquote_plus (s : String) : String :=
  ⟨unquote1 (s.data.map (fun c => if c = '+' then ' ' else c))⟩

/-- Plain percent-decoding, following the spec words only: `%XX` escapes are
decoded and every other character, including a literal `+`, is kept
unchanged.  This is the comparison point for the refinement claim about the
decoded key; the source instead uses `unquote_plus`, which also turns `+`
into a space. -/
def percent_decode (s : String) : String :=
  ⟨unquote1 s.data⟩

/-- Python `str.replace(':service', 'antivirus')` on a character list:
replace every non-overlapping occurrence, scanning left to right
(`scan.py` line 41). -/
def replace_service_chars : List Char → List Char
  | ':' :: 's' :: 'e' :: 'r' :: 'v' :: 'i' :: 'c' :: 'e' :: rest =>
      'a' :: 'n' :: 't' :: 'i' :: 'v' :: 'i' :: 'r' :: 'u' :: 's' ::
        replace_service_chars rest
  | c :: rest => c :: replace_service_chars rest
  | [] => []

/-- String form of `replace_service_chars`. -/
def replace_service (s : String) : String :=
  ⟨replace_service_chars s.data⟩

/-- Python `os.path.basename`: the part of the path after the last `/`
(`scan.py` line 122). -/
def basename (p : String) : String :=
  ⟨p.data.foldl (fun acc c => if c = '/' then [] else acc ++ [c]) []⟩

/-! ## Tags and the tag sink -/

/-- One object tag, as the storage API's Key/Value pair. -/
structure Tag where
  key : String
  value : String
deriving DecidableEq, Repr

/-- Modelled from the spec: the status tag key.  The constant is declared in
`common.py`, which is not part of the sources here; the spec only requires a
fixed key for the status tag, distinct from the timestamp tag key. -/
def AV_STATUS_METADATA : String := "av-status"

/-- Modelled from the spec: the timestamp tag key, declared in `common.py`
(not part of the sources here); a fixed key distinct from the status key. -/
def AV_TIMESTAMP_METADATA : String := "av-timestamp"

/-- Membership test of `scan.py` line 78:
the tag key is one of the two antivirus tag keys. -/
def isAvTagKey (k : String) : Bool :=
  k == AV_STATUS_METADATA || k == AV_TIMESTAMP_METADATA

/-- Pure content of `set_av_tags` (`scan.py` lines 74-86): starting from the
current tag set, iterate over the current tags and remove (first occurrence,
Python `list.remove`) each tag whose key is an antivirus tag key, then append
a fresh status tag and a fresh timestamp tag.  `res` is the scan result and
`ts` the formatted current time.  Python `list.remove` raises when the
element is absent, but here each occurrence of a matching tag erases exactly
one equal element of a list that starts as a copy, so an equal element is
always present and `List.erase` agrees with it. -/
def set_av_tags_tagset (curr : List Tag) (res ts : String) : List Tag :=
  (curr.foldl (fun acc t => if isAvTagKey t.key then acc.erase t else acc) curr)
    ++ [⟨AV_STATUS_METADATA, res⟩, ⟨AV_TIMESTAMP_METADATA, ts⟩]

/-! ## Events, calls, errors -/

/-- The inner SNS message of one record, after JSON parsing: a dict with
optional string fields.  A missing field makes the Python subscript raise
`KeyError`. -/
structure SnsMessage where
  bucket : Option String
  key : Option String
  webhook : Option String
  auth : Option String
deriving DecidableEq, Repr

/-- The inbound event: a list of records, each carrying one inner message. -/
structure Event where
  records : List SnsMessage
deriving DecidableEq, Repr

/-- Payload of the webhook result PATCH (`scan.py` lines 121-126). -/
structure WebhookPayload where
  filename : String
  is_infected : Bool
  status : String
  result : String
deriving DecidableEq, Repr

/-- One external call the handler can attempt, with the arguments the Python
code passes.  Trace entries record the repo-level call sites: webhook POST
and PATCH, storage download / metadata copy / tagging, definitions update,
file scan, topic publish, metrics send, and local file removal. -/
inductive Call where
  | post (url : String) (payload : List (String × String)) (auth : String)
  | download (bucket key localPath : String)
  | updateDefs (bucket pfx : String)
  | scanFile (path : String)
  | copyMetadata (bucket key status : String)
  | getTags (bucket key : String)
  | putTags (bucket key status : String) (tags : List Tag)
  | snsPublish (arn bucket key status : String)
  | patch (url status : String) (payload : WebhookPayload) (auth : String)
  | metricsSend (env bucket key status : String)
  | removeFile (path : String)
deriving DecidableEq, Repr

/-- Python exceptions the embedded code distinguishes: a `KeyError` from a
missing dict field, an `IndexError` from indexing an empty record list, an
explicitly raised `Exception` with its message, and an exception raised by
an external call. -/
inductive PyError where
  | keyError (field : String)
  | indexError
  | exception (msg : String)
  | callError (c : Call)
deriving DecidableEq, Repr

/-- Result of a fallible piece of straight-line code. -/
inductive Res (α : Type) where
  | ok (a : α)
  | err (e : PyError)
deriving DecidableEq, Repr

/-- How one invocation of the handler ends: normal return, or an uncaught
exception. -/
inductive Outcome where
  | ok
  | error (e : PyError)
deriving DecidableEq, Repr

/-- What one invocation did: the external calls that completed, in order,
and how the invocation ended. -/
structure RunResult where
  trace : List Call
  outcome : Outcome
deriving DecidableEq, Repr

/-! ## Event decoding -/

/-- Embedding of `event_object` (`scan.py` lines 29-36): read the first
record's message, look up `bucket` then `key` (missing field: `KeyError`),
percent-plus-decode the key, and raise the explicit exception when either is
empty.  The `s3.Object` handle is just the bucket/key pair (its construction
makes no network call). -/
def event_object (event : Event) : Res (String × String) :=
  match event.records with
  | [] => .err .indexError
  | m :: _ =>
    match m.bucket with
    | none => .err (.keyError "bucket")
    | some bucket =>
      match m.key with
      | none => .err (.keyError "key")
      | some rawKey =>
        let key := unquote_plus rawKey
        if bucket = "" ∨ key = "" then
          .err (.exception "Unable to retrieve object from event.")
        else .ok (bucket, key)

/-- Embedding of `event_webhook` (`scan.py` lines 39-46): read the first
record's message, look up `webhook` (missing: `KeyError`),
percent-plus-decode it and rewrite every `:service` to `antivirus`, look up
`auth` (missing: `KeyError`), and raise the explicit exception when the
decoded webhook is empty. -/
def event_webhook (event : Event) : Res (String × String) :=
  match event.records with
  | [] => .err .indexError
  | m :: _ =>
    match m.webhook with
    | none => .err (.keyError "webhook")
    | some rawWebhook =>
      let webhook := replace_service (unquote_plus rawWebhook)
      match m.auth with
      | none => .err (.keyError "auth")
      | some auth =>
        if webhook = "" then
          .err (.exception "Unable to retrieve webhook from event.")
        else .ok (webhook, auth)

/-! ## Configuration and the external-call oracle -/

/-- Modelled from the spec: the environment-driven configuration that
`common.py` (not part of the sources here) loads at import time — the
environment tag, the definitions bucket and prefix, whether the
metadata-update flag is set, and the optional notification topic target. -/
structure Config where
  env : String
  defsBucket : String
  defsPath : String
  updateMetadata : Bool
  snsArn : Option String

/-- Oracle for one invocation: which external calls succeed and which raise,
what the scan engine returns when it succeeds, the object's current tag set,
and the formatted time used for the fresh tags. -/
structure World where
  postOk : Bool
  downloadOk : Bool
  updateOk : Bool
  scanOk : Bool
  scanResult : String × String
  metadataOk : Bool
  getTagsOk : Bool
  currentTags : List Tag
  tagTime : String
  putTagsOk : Bool
  snsOk : Bool
  patchOk : Bool
  metricsOk : Bool

/-- Whether a call raises in the given world.  `os.remove` never raises out
of the handler: `scan.py` lines 148-151 swallow `OSError`. -/
def raises (w : World) : Call → Bool
  | .post .. => !w.postOk
  | .download .. => !w.downloadOk
  | .updateDefs .. => !w.updateOk
  | .scanFile .. => !w.scanOk
  | .copyMetadata .. => !w.metadataOk
  | .getTags .. => !w.getTagsOk
  | .putTags .. => !w.putTagsOk
  | .snsPublish .. => !w.snsOk
  | .patch .. => !w.patchOk
  | .metricsSend .. => !w.metricsOk
  | .removeFile .. => false

/-! ## Sinks -/

/-- Call made by `webhook_scan_started` (`scan.py` lines 106-110): none when
the webhook is the empty string, otherwise a POST of the empty payload with
the credential in the Authorization header. -/
def webhook_scan_started_fn (webhook auth : String) : Option Call :=
  if webhook = "" then none else some (.post webhook [] auth)

/-- Call made by `webhook_scan_results` (`scan.py` lines 113-127): none when
the webhook is the empty string, otherwise a PATCH whose payload carries the
basename of the key, the infection flag and detail text derived from the
result, and a fixed success status. -/
def webhook_scan_results_fn (key result output webhook auth : String) : Option Call :=
  if webhook = "" then none
  else
    let is_infected := result == "INFECTED"
    let details := if result == "INFECTED" then "INFECTED: " ++ output else "clean"
    some (.patch webhook result ⟨basename key, is_infected, "success", details⟩ auth)

/-- Call made by `sns_scan_results` (`scan.py` lines 89-103): none when no
topic target is configured, otherwise a publish of bucket, key and status. -/
def sns_scan_results_fn (arn : Option String) (bucket key result : String) : Option Call :=
  match arn with
  | none => none
  | some a => some (.snsPublish a bucket key result)

/-- Local path computed by `download_s3_object` (`scan.py` line 50):
root, bucket and key joined with slashes. -/
def download_local_path (root bucket key : String) : String :=
  root ++ "/" ++ bucket ++ "/" ++ key

/-! ## The handler -/

/-- The calls `lambda_handler` attempts after decoding, up to but excluding
the metrics call, in source order (`scan.py` lines 136-145): webhook start,
download, definitions update, scan, optional metadata copy, tag read and
write, optional topic publish, webhook result. -/
def handlerSinks (cfg : Config) (w : World) (bucket key webhook auth : String) : List Call :=
  (webhook_scan_started_fn webhook auth).toList
  ++ [Call.download bucket key (download_local_path "/tmp" bucket key),
      Call.updateDefs cfg.defsBucket cfg.defsPath,
      Call.scanFile (download_local_path "/tmp" bucket key)]
  ++ (if cfg.updateMetadata then [Call.copyMetadata bucket key w.scanResult.1] else [])
  ++ [Call.getTags bucket key,
      Call.putTags bucket key w.scanResult.1
        (set_av_tags_tagset w.currentTags w.scanResult.1 w.tagTime)]
  ++ (sns_scan_results_fn cfg.snsArn bucket key w.scanResult.1).toList
  ++ (webhook_scan_results_fn key w.scanResult.1 w.scanResult.2 webhook auth).toList

/-- The calls attempted after decoding, through the metrics call
(`scan.py` line 146). -/
def handlerPre (cfg : Config) (w : World) (bucket key webhook auth : String) : List Call :=
  handlerSinks cfg w bucket key webhook auth
    ++ [Call.metricsSend cfg.env bucket key w.scanResult.1]

/-- All calls attempted after decoding: the sinks and metrics, then the
local-file removal (`scan.py` lines 148-151). -/
def handlerOps (cfg : Config) (w : World) (bucket key webhook auth : String) : List Call :=
  handlerPre cfg w bucket key webhook auth
    ++ [Call.removeFile (download_local_path "/tmp" bucket key)]

/-- Calls that complete before the first raising call. -/
def runTrace (w : World) (ops : List Call) : List Call :=
  ops.takeWhile (fun c => !raises w c)

/-- How a straight-line sequence of calls ends: normally, or with the first
raising call's exception propagating. -/
def runOutcome (w : World) (ops : List Call) : Outcome :=
  match ops.dropWhile (fun c => !raises w c) with
  | [] => .ok
  | c :: _ => .error (.callError c)

/-- Post-decode part of the handler: attempt the computed calls in order. -/
def handlerRun (cfg : Config) (w : World) (bucket key webhook auth : String) : RunResult :=
  ⟨runTrace w (handlerOps cfg w bucket key webhook auth),
   runOutcome w (handlerOps cfg w bucket key webhook auth)⟩

/-- Embedding of `lambda_handler` (`scan.py` lines 130-153): decode the
object locator, decode the webhook, then attempt the pipeline calls in
source order, stopping at the first uncaught exception. -/
def lambda_handler (cfg : Config) (w : World) (event : Event) : RunResult :=
  match event_object event with
  | .err e => ⟨[], .error e⟩
  | .ok (bucket, key) =>
    match event_webhook event with
    | .err e => ⟨[], .error e⟩
    | .ok (webhook, auth) => handlerRun cfg w bucket key webhook auth

/-! ## Observations on a run -/

/-- The verdict status string a sink call receives, when the call is a sink
receiving the verdict. -/
def statusOf : Call → Option String
  | .copyMetadata _ _ s => some s
  | .putTags _ _ s _ => some s
  | .snsPublish _ _ _ s => some s
  | .patch _ s _ _ => some s
  | .metricsSend _ _ _ s => some s
  | _ => none

/-- Whether a call is the scan-engine scan. -/
def isScanCall : Call → Bool
  | .scanFile _ => true
  | _ => false

/-- Whether a call is the local-file removal. -/
def isRemoveCall : Call → Bool
  | .removeFile _ => true
  | _ => false

/-- The fetch step completed: a download call is in the trace, so the local
artifact was created. -/
def artifactCreated (r : RunResult) : Bool :=
  r.trace.any (fun c => match c with | .download .. => true | _ => false)

/-- The cleanup step ran: the removal call is in the trace. -/
def cleanupRan (r : RunResult) : Bool :=
  r.trace.any isRemoveCall

/-- The local artifact still exists when the invocation returns: it was
created by a successful download and no removal ran.  In the model the local
filesystem changes only through these two operations. -/
def artifactExistsAtEnd (r : RunResult) : Bool :=
  artifactCreated r && !cleanupRan r

/-- All calls the invocation attempted: the completed ones, plus the raising
one when the invocation died on an external call. -/
def attempts (r : RunResult) : List Call :=
  r.trace ++ (match r.outcome with | .error (.callError c) => [c] | _ => [])

/-! ## Concrete instances for witnesses and counterexamples -/

/-- Sample configuration: no metadata flag, no topic target. -/
def cfgX : Config := ⟨"prod", "defs-bucket", "defs", false, none⟩

/-- Sample configuration with the metadata flag set and a topic target. -/
def cfgY : Config := ⟨"prod", "defs-bucket", "defs", true, some "arn:sns"⟩

/-- World where every external call succeeds and the scan verdict is CLEAN. -/
def wOk : World :=
  ⟨true, true, true, true, ("CLEAN", ""), true, true, [⟨"owner", "alice"⟩], "t1",
   true, true, true, true⟩

/-- World identical to `wOk` except that the scan call raises. -/
def wScanFails : World :=
  ⟨true, true, true, false, ("CLEAN", ""), true, true, [⟨"owner", "alice"⟩], "t1",
   true, true, true, true⟩

/-- World identical to `wOk` except that the metrics call raises. -/
def wMetricsFails : World :=
  ⟨true, true, true, true, ("CLEAN", ""), true, true, [⟨"owner", "alice"⟩], "t1",
   true, true, true, false⟩

/-- Sample event with bucket, key, webhook and auth all present. -/
def eFull : Event :=
  ⟨[⟨some "b", some "k", some "https://x/:service", some "tok"⟩]⟩

/-- Sample event with valid bucket and key but no webhook and no auth. -/
def eNoWebhook : Event :=
  ⟨[⟨some "b", some "k", none, none⟩]⟩

/-- Sample event whose message lacks the bucket field. -/
def eNoBucket : Event :=
  ⟨[⟨none, some "k", some "https://x/:service", some "tok"⟩]⟩

/-- Sample event whose key contains a literal plus sign. -/
def ePlusKey : Event :=
  ⟨[⟨some "b", some "a+b", some "https://x/:service", some "tok"⟩]⟩

/-! ## Generic list lemmas for the executor and the tag sink -/

theorem mem_of_mem_takeWhile {α} {q : α → Bool} :
    ∀ {l : List α} {c : α}, c ∈ l.takeWhile q → c ∈ l := by
  intro l
  induction l with
  | nil => intro c h; simp [List.takeWhile] at h
  | cons a l ih =>
    intro c h
    by_cases hq : q a
    · simp [List.takeWhile_cons, hq] at h
      rcases h with h | h
      · simp [h]
      · exact List.mem_cons_of_mem _ (ih h)
    · simp [List.takeWhile_cons, hq] at h

theorem mem_takeWhile_split {α} (q : α → Bool) :
    ∀ (l1 : List α) (a : α) (l2 : List α) (c : α),
      c ∈ ((l1 ++ a :: l2).takeWhile q) → c ∈ l1 ∨ a ∈ ((l1 ++ a :: l2).takeWhile q) := by
  intro l1
  induction l1 with
  | nil =>
    intro a l2 c h
    simp only [List.nil_append] at *
    by_cases hq : q a
    · right; simp [List.takeWhile_cons, hq]
    · simp [List.takeWhile_cons, hq] at h
  | cons b l1 ih =>
    intro a l2 c h
    by_cases hq : q b
    · simp only [List.cons_append, List.takeWhile_cons, hq, if_true] at h ⊢
      rcases List.mem_cons.mp h with h | h
      · left; simp [h]
      · rcases ih a l2 c h with h' | h'
        · left; exact List.mem_cons_of_mem _ h'
        · right; exact List.mem_cons_of_mem _ h'
    · simp [List.cons_append, List.takeWhile_cons, hq] at h

theorem dropWhile_nil_of_last_mem_takeWhile {α} {q : α → Bool} :
    ∀ (l1 : List α) (x : α), x ∉ l1 → x ∈ ((l1 ++ [x]).takeWhile q) →
      (l1 ++ [x]).dropWhile q = [] := by
  intro l1
  induction l1 with
  | nil =>
    intro x _ h
    simp only [List.nil_append] at *
    by_cases hq : q x
    · simp [List.dropWhile, hq]
    · simp [List.takeWhile_cons, hq] at h
  | cons b l1 ih =>
    intro x hnx h
    have hxb : x ≠ b := by intro he; exact hnx (by simp [he])
    have hxl : x ∉ l1 := fun hm => hnx (List.mem_cons_of_mem _ hm)
    by_cases hq : q b
    · simp only [List.cons_append, List.takeWhile_cons, hq, if_true] at h
      rcases List.mem_cons.mp h with h | h
      · exact absurd h hxb
      · have := ih x hxl h
        simp [List.cons_append, List.dropWhile, hq, this]
    · simp [List.cons_append, List.takeWhile_cons, hq] at h

theorem countP_takeWhile_le {α} (q p : α → Bool) :
    ∀ l : List α, (l.takeWhile q).countP p ≤ l.countP p := by
  intro l
  induction l with
  | nil => simp [List.takeWhile]
  | cons a l ih =>
    by_cases hq : q a
    · simp only [List.takeWhile_cons, hq, if_true, List.countP_cons]
      omega
    · simp only [List.takeWhile_cons, hq, Bool.false_eq_true, if_false, List.countP_cons,
        List.countP_nil]
      omega

theorem foldl_erase_eq_diff {α} [DecidableEq α] (p : α → Bool) :
    ∀ (l acc : List α),
      l.foldl (fun acc t => if p t then acc.erase t else acc) acc = acc.diff (l.filter p) := by
  intro l
  induction l with
  | nil => intro acc; simp
  | cons t l ih =>
    intro acc
    by_cases hp : p t
    · simp only [List.foldl_cons, hp, if_true, List.filter_cons, List.diff_cons]
      exact ih (acc.erase t)
    · simp only [List.foldl_cons, hp, if_false, List.filter_cons]
      simpa [hp] using ih acc

theorem cons_diff_of_not_mem {α} [DecidableEq α] (a : α) :
    ∀ (r l : List α), a ∉ r → (a :: l).diff r = a :: l.diff r := by
  intro r
  induction r with
  | nil => intro l _; simp
  | cons b r ih =>
    intro l hn
    have hab : a ≠ b := by intro he; exact hn (by simp [he])
    have har : a ∉ r := fun hm => hn (List.mem_cons_of_mem _ hm)
    rw [List.diff_cons, List.erase_cons_tail (by simp [hab]),
      ih _ har, List.diff_cons]

theorem diff_filter_self {α} [DecidableEq α] (p : α → Bool) :
    ∀ l : List α, l.diff (l.filter p) = l.filter (fun x => !(p x)) := by
  intro l
  induction l with
  | nil => simp
  | cons x l ih =>
    by_cases hp : p x
    · simp only [List.filter_cons, hp, if_true, List.diff_cons, List.erase_cons_head, cond_true]
      simpa [hp] using ih
    · have hx : x ∉ l.filter p := by
        intro hm
        exact hp (List.of_mem_filter hm)
      simp only [List.filter_cons, hp, Bool.false_eq_true, if_false]
      rw [cons_diff_of_not_mem x _ _ hx]
      simpa [hp] using ih

/-- Structural form of the tag sink: the fold removes exactly the tags whose
key is an antivirus tag key, keeping the rest in order, and the two fresh
tags are appended. -/
theorem set_av_tags_tagset_eq (curr : List Tag) (res ts : String) :
    set_av_tags_tagset curr res ts =
      curr.filter (fun t => !(isAvTagKey t.key))
        ++ [⟨AV_STATUS_METADATA, res⟩, ⟨AV_TIMESTAMP_METADATA, ts⟩] := by
  unfold set_av_tags_tagset
  rw [foldl_erase_eq_diff (fun t => isAvTagKey t.key) curr curr,
    diff_filter_self (fun t => isAvTagKey t.key) curr]

theorem filter_status_of_filter_not_av (l : List Tag) :
    (l.filter (fun t => !(isAvTagKey t.key))).filter
      (fun t => t.key == AV_STATUS_METADATA) = [] := by
  rw [List.filter_filter]
  rw [List.filter_eq_nil_iff]
  intro t _
  simp only [isAvTagKey, Bool.and_eq_true, Bool.not_eq_true', Bool.or_eq_false_iff]
  rintro ⟨hs, hs', _⟩
  simp [hs] at hs'

theorem filter_time_of_filter_not_av (l : List Tag) :
    (l.filter (fun t => !(isAvTagKey t.key))).filter
      (fun t => t.key == AV_TIMESTAMP_METADATA) = [] := by
  rw [List.filter_filter]
  rw [List.filter_eq_nil_iff]
  intro t _
  simp only [isAvTagKey, Bool.and_eq_true, Bool.not_eq_true', Bool.or_eq_false_iff]
  rintro ⟨hs, _, hs'⟩
  simp [hs] at hs'

theorem filter_not_av_idem (l : List Tag) :
    (l.filter (fun t => !(isAvTagKey t.key))).filter (fun t => !(isAvTagKey t.key))
      = l.filter (fun t => !(isAvTagKey t.key)) := by
  rw [List.filter_filter]
  apply List.filter_congr
  intro t _
  simp [Bool.and_self]

/-- C3: the tag sink is idempotent.  For every starting tag set and every
pair of verdict strings and timestamps, applying `set_av_tags` twice in
succession yields a tag set containing exactly one status tag and exactly one
timestamp tag — the fresh ones from the second application — with no
duplicates or stale prior entries, and every tag with another key preserved
exactly as in the starting set. -/
theorem C3_tag_sink_idempotent (curr : List Tag) (res1 res2 t1 t2 : String) :
    (set_av_tags_tagset (set_av_tags_tagset curr res1 t1) res2 t2).filter
        (fun t => t.key == AV_STATUS_METADATA)
      = [⟨AV_STATUS_METADATA, res2⟩]
    ∧ (set_av_tags_tagset (set_av_tags_tagset curr res1 t1) res2 t2).filter
        (fun t => t.key == AV_TIMESTAMP_METADATA)
      = [⟨AV_TIMESTAMP_METADATA, t2⟩]
    ∧ (set_av_tags_tagset (set_av_tags_tagset curr res1 t1) res2 t2).filter
        (fun t => !(isAvTagKey t.key))
      = curr.filter (fun t => !(isAvTagKey t.key)) := by
  rw [set_av_tags_tagset_eq, set_av_tags_tagset_eq]
  simp only [List.filter_append, filter_not_av_idem, filter_status_of_filter_not_av,
    filter_time_of_filter_not_av]
  refine ⟨?_, ?_, ?_⟩ <;>
    simp [isAvTagKey, AV_STATUS_METADATA, AV_TIMESTAMP_METADATA]

/-! ## Decoder lemmas and claims -/

theorem lambda_handler_decode_err (cfg : Config) (w : World) (e : Event) (err : PyError)
    (h : event_object e = Res.err err) : lambda_handler cfg w e = ⟨[], .error err⟩ := by
  unfold lambda_handler
  rw [h]

theorem lambda_handler_webhook_err (cfg : Config) (w : World) (e : Event)
    (bk : String × String) (err : PyError) (h1 : event_object e = Res.ok bk)
    (h2 : event_webhook e = Res.err err) : lambda_handler cfg w e = ⟨[], .error err⟩ := by
  obtain ⟨b, k⟩ := bk
  unfold lambda_handler
  rw [h1, h2]


/-- C7 (amended): for every valid inbound event, the key in the decoded scan
request equals the plus-aware percent-decoding of the raw key string — every
plus sign becomes a space and then every two-hex-digit escape is decoded —
rather than the plain percent-decoding, which would leave a literal plus
unchanged. -/
theorem C7_key_is_unquote_plus (m : SnsMessage) (rest : List SnsMessage)
    (rawKey b k : String) (hk : m.key = some rawKey)
    (hok : event_object ⟨m :: rest⟩ = Res.ok (b, k)) : k = unquote_plus rawKey := by
  cases hb : m.bucket with
  | none => simp [event_object, hb] at hok
  | some bucket =>
    by_cases hc : bucket = "" ∨ unquote_plus rawKey = ""
    · simp [event_object, hb, hk, hc] at hok
    · simp [event_object, hb, hk, hc] at hok
      exact hok.2.symm

/-- C7 counterexample: the claim says the decoded key equals the plain
percent-decoding of the raw key for all keys, including those containing a
plus sign.  On the event whose raw key is the three characters a, plus, b,
decoding succeeds with key a-space-b, while the plain percent-decoding of
the raw key is the raw key itself, and the two differ. -/
theorem C7_counterexample :
    event_object ePlusKey = Res.ok ("b", "a b")
    ∧ percent_decode "a+b" = "a+b"
    ∧ ("a b" : String) ≠ "a+b" :=
  ⟨by decide, by decide, by decide⟩

theorem C7_witness : ("a b" : String) = unquote_plus "a+b" :=
  C7_key_is_unquote_plus ⟨some "b", some "a+b", some "https://x/:service", some "tok"⟩
    [] "a+b" "b" "a b" rfl (by decide)

/-- C10: both decoding functions read only the first record, so the whole
pipeline behaves identically on an event and on the same event truncated to
its first record; an event with an empty record list raises a generic index
error before any external call (the run has an empty trace). -/
theorem C10_first_record_only (cfg : Config) (w : World) (m : SnsMessage)
    (rest : List SnsMessage) :
    event_object ⟨m :: rest⟩ = event_object ⟨[m]⟩
    ∧ event_webhook ⟨m :: rest⟩ = event_webhook ⟨[m]⟩
    ∧ lambda_handler cfg w ⟨m :: rest⟩ = lambda_handler cfg w ⟨[m]⟩
    ∧ lambda_handler cfg w ⟨[]⟩ = ⟨[], .error .indexError⟩ :=
  ⟨rfl, rfl, rfl, rfl⟩

/-- C6: an inbound event whose first decoded message has a missing or empty
bucket or key makes decoding fail before any external call: the invocation
ends with the decode error and an empty trace, no storage, scan-engine or
sink call being attempted.  The decode error is the key-lookup error of the
missing field when the field is absent, and the explicitly raised
malformed-event exception when both fields are present but one is empty. -/
theorem C6_malformed_event_aborts (cfg : Config) (w : World) (m : SnsMessage)
    (rest : List SnsMessage)
    (h : m.bucket = none ∨ m.key = none ∨ m.bucket = some "" ∨ m.key = some "") :
    ∃ err, event_object ⟨m :: rest⟩ = Res.err err
      ∧ lambda_handler cfg w ⟨m :: rest⟩ = ⟨[], .error err⟩
      ∧ (m.bucket = none → err = .keyError "bucket")
      ∧ (∀ b, m.bucket = some b → m.key = none → err = .keyError "key")
      ∧ (∀ b rk, m.bucket = some b → m.key = some rk →
          err = .exception "Unable to retrieve object from event.") := by
  cases hb : m.bucket with
  | none =>
    refine ⟨.keyError "bucket", by simp [event_object, hb], ?_, fun _ => rfl, ?_, ?_⟩
    · exact lambda_handler_decode_err cfg w _ _ (by simp [event_object, hb])
    · intro b hb' _; simp [hb] at hb'
    · intro b rk hb' _; simp [hb] at hb'
  | some b =>
    cases hk : m.key with
    | none =>
      refine ⟨.keyError "key", by simp [event_object, hb, hk], ?_, ?_, fun _ _ _ => rfl, ?_⟩
      · exact lambda_handler_decode_err cfg w _ _ (by simp [event_object, hb, hk])
      · intro hb'; simp [hb] at hb'
      · intro b' rk _ hk'; simp [hk] at hk'
    | some rk =>
      have hcond : b = "" ∨ unquote_plus rk = "" := by
        rcases h with h | h | h | h
        · simp [h] at hb
        · simp [h] at hk
        · rw [h] at hb
          injection hb with hb2
          exact Or.inl hb2.symm
        · rw [h] at hk
          injection hk with hk2
          right
          rw [← hk2]
          rfl
      refine ⟨.exception "Unable to retrieve object from event.",
        by simp [event_object, hb, hk, hcond], ?_, ?_, ?_, fun _ _ _ _ => rfl⟩
      · exact lambda_handler_decode_err cfg w _ _ (by simp [event_object, hb, hk, hcond])
      · intro hb'; simp [hb] at hb'
      · intro b' hb' hk'; simp [hk] at hk'

theorem C6_witness :
    ∃ err, event_object ⟨[⟨none, some "k", some "wh", some "tok"⟩]⟩ = Res.err err
      ∧ lambda_handler cfgX wOk ⟨[⟨none, some "k", some "wh", some "tok"⟩]⟩
          = ⟨[], .error err⟩
      ∧ ((⟨none, some "k", some "wh", some "tok"⟩ : SnsMessage).bucket = none →
          err = .keyError "bucket")
      ∧ (∀ b, (⟨none, some "k", some "wh", some "tok"⟩ : SnsMessage).bucket = some b →
          (⟨none, some "k", some "wh", some "tok"⟩ : SnsMessage).key = none →
          err = .keyError "key")
      ∧ (∀ b rk, (⟨none, some "k", some "wh", some "tok"⟩ : SnsMessage).bucket = some b →
          (⟨none, some "k", some "wh", some "tok"⟩ : SnsMessage).key = some rk →
          err = .exception "Unable to retrieve object from event.") :=
  C6_malformed_event_aborts cfgX wOk ⟨none, some "k", some "wh", some "tok"⟩ []
    (Or.inl rfl)

/-! ## Executor lemmas -/

theorem sns_scan_results_fn_eq_map (arn : Option String) (b k r : String) :
    sns_scan_results_fn arn b k r = arn.map (fun a => Call.snsPublish a b k r) := by
  cases arn <;> rfl

theorem runOutcome_ok_iff (w : World) (ops : List Call) :
    runOutcome w ops = .ok ↔ ops.dropWhile (fun c => !raises w c) = [] := by
  unfold runOutcome
  cases h : ops.dropWhile (fun c => !raises w c) <;> simp

theorem runTrace_eq_of_ok (w : World) (ops : List Call) (h : runOutcome w ops = .ok) :
    runTrace w ops = ops := by
  have hd := (runOutcome_ok_iff w ops).mp h
  have h2 := List.takeWhile_append_dropWhile (fun c => !raises w c) ops
  rw [hd, List.append_nil] at h2
  exact h2

theorem not_raises_of_ok (w : World) (ops : List Call) (h : runOutcome w ops = .ok) :
    ∀ c ∈ ops, raises w c = false := by
  intro c hc
  have hd := (runOutcome_ok_iff w ops).mp h
  have := List.dropWhile_eq_nil_iff.mp hd c hc
  simpa using this

/-! ## Handler structure lemmas -/

theorem remove_not_mem_handlerPre (cfg : Config) (w : World) (b k wh a p : String) :
    Call.removeFile p ∉ handlerPre cfg w b k wh a := by
  intro hc
  simp [handlerPre, handlerSinks, webhook_scan_started_fn, webhook_scan_results_fn,
    sns_scan_results_fn_eq_map, Option.map_eq_some', ite_eq_iff] at hc

theorem metrics_not_mem_handlerSinks (cfg : Config) (w : World) (b k wh a e2 b2 k2 s2 : String) :
    Call.metricsSend e2 b2 k2 s2 ∉ handlerSinks cfg w b k wh a := by
  intro hc
  simp [handlerSinks, webhook_scan_started_fn, webhook_scan_results_fn,
    sns_scan_results_fn_eq_map, Option.map_eq_some', ite_eq_iff] at hc

theorem metrics_mem_handlerOps (cfg : Config) (w : World) (b k wh a : String) :
    Call.metricsSend cfg.env b k w.scanResult.1 ∈ handlerOps cfg w b k wh a := by
  simp [handlerOps, handlerPre]

theorem remove_mem_handlerOps (cfg : Config) (w : World) (b k wh a : String) :
    Call.removeFile (download_local_path "/tmp" b k) ∈ handlerOps cfg w b k wh a := by
  simp [handlerOps]

theorem remove_eq_of_mem_handlerOps (cfg : Config) (w : World) (b k wh a p : String)
    (hc : Call.removeFile p ∈ handlerOps cfg w b k wh a) :
    p = download_local_path "/tmp" b k := by
  unfold handlerOps at hc
  rcases List.mem_append.mp hc with h | h
  · exact absurd h (remove_not_mem_handlerPre cfg w b k wh a p)
  · simpa using h

theorem statusOf_handlerOps (cfg : Config) (w : World) (b k wh a : String) :
    ∀ c ∈ handlerOps cfg w b k wh a, ∀ s, statusOf c = some s → s = w.scanResult.1 := by
  intro c hc s hs
  simp [handlerOps, handlerPre, handlerSinks, webhook_scan_started_fn,
    webhook_scan_results_fn, sns_scan_results_fn_eq_map, Option.map_eq_some',
    ite_eq_iff] at hc
  rcases hc with ⟨_, rfl⟩ | rfl | rfl | rfl | ⟨_, rfl⟩ | rfl | rfl | ⟨x, _, rfl⟩
    | ⟨_, rfl⟩ | rfl | rfl <;> simp_all [statusOf]

theorem countP_scan_handlerOps (cfg : Config) (w : World) (b k wh a : String) :
    (handlerOps cfg w b k wh a).countP isScanCall = 1 := by
  by_cases hwh : wh = "" <;> by_cases hmd : cfg.updateMetadata = true <;>
    cases harn : cfg.snsArn <;>
      simp [handlerOps, handlerPre, handlerSinks, webhook_scan_started_fn,
        webhook_scan_results_fn, sns_scan_results_fn, hwh, hmd, harn, isScanCall,
        List.countP_cons, List.countP_append]

theorem handlerOps_split_scan (cfg : Config) (w : World) (b k wh a : String) :
    handlerOps cfg w b k wh a =
      ((webhook_scan_started_fn wh a).toList
        ++ [Call.download b k (download_local_path "/tmp" b k),
            Call.updateDefs cfg.defsBucket cfg.defsPath])
      ++ Call.scanFile (download_local_path "/tmp" b k)
        :: ((if cfg.updateMetadata then [Call.copyMetadata b k w.scanResult.1] else [])
            ++ [Call.getTags b k,
                Call.putTags b k w.scanResult.1
                  (set_av_tags_tagset w.currentTags w.scanResult.1 w.tagTime)]
            ++ (sns_scan_results_fn cfg.snsArn b k w.scanResult.1).toList
            ++ (webhook_scan_results_fn k w.scanResult.1 w.scanResult.2 wh a).toList
            ++ [Call.metricsSend cfg.env b k w.scanResult.1,
                Call.removeFile (download_local_path "/tmp" b k)]) := by
  simp [handlerOps, handlerPre, handlerSinks]

theorem statusOf_none_before_scan (cfg : Config) (b k wh a : String) :
    ∀ c ∈ (webhook_scan_started_fn wh a).toList
        ++ [Call.download b k (download_local_path "/tmp" b k),
            Call.updateDefs cfg.defsBucket cfg.defsPath], statusOf c = none := by
  intro c hc
  simp [webhook_scan_started_fn, ite_eq_iff] at hc
  rcases hc with ⟨_, rfl⟩ | rfl | rfl <;> rfl

/-! ## Claims about the handler -/

/-- C1 (amended): cleanup runs only on the all-success path.  If the
invocation returns normally the local artifact no longer exists, but when a
local artifact was created by the fetch step and the invocation then ends
with an uncaught exception — a fatal error in definition update or scanning,
or a sink error during propagation — the handler returns without removing
the artifact and its path still exists on disk. -/
theorem C1_cleanup_only_on_success (cfg : Config) (w : World) (e : Event) :
    ((lambda_handler cfg w e).outcome = Outcome.ok →
      artifactExistsAtEnd (lambda_handler cfg w e) = false)
    ∧ (artifactCreated (lambda_handler cfg w e) = true →
        (lambda_handler cfg w e).outcome ≠ Outcome.ok →
        artifactExistsAtEnd (lambda_handler cfg w e) = true) := by
  cases hobj : event_object e with
  | err er =>
    rw [lambda_handler_decode_err cfg w e er hobj]
    constructor
    · intro h; cases h
    · intro hcr; simp [artifactCreated] at hcr
  | ok bk =>
    obtain ⟨b, k⟩ := bk
    cases hwh : event_webhook e with
    | err er =>
      rw [lambda_handler_webhook_err cfg w e (b, k) er hobj hwh]
      constructor
      · intro h; cases h
      · intro hcr; simp [artifactCreated] at hcr
    | ok wa =>
      obtain ⟨wh, a⟩ := wa
      have hlh : lambda_handler cfg w e = handlerRun cfg w b k wh a := by
        unfold lambda_handler; rw [hobj, hwh]
      rw [hlh]
      constructor
      · intro hok
        have htr : runTrace w (handlerOps cfg w b k wh a) = handlerOps cfg w b k wh a :=
          runTrace_eq_of_ok w _ hok
        have hclean : cleanupRan (handlerRun cfg w b k wh a) = true := by
          simp only [cleanupRan, handlerRun, List.any_eq_true]
          refine ⟨Call.removeFile (download_local_path "/tmp" b k), ?_, rfl⟩
          rw [htr]
          exact remove_mem_handlerOps cfg w b k wh a
        simp [artifactExistsAtEnd, hclean]
      · intro hcr hne
        have hclean : cleanupRan (handlerRun cfg w b k wh a) = false := by
          by_contra hcl
          rw [Bool.not_eq_false] at hcl
          simp only [cleanupRan, handlerRun, List.any_eq_true] at hcl
          obtain ⟨c, hcmem, hrc⟩ := hcl
          cases c <;> simp [isRemoveCall] at hrc
          case removeFile p =>
            have hpeq : p = download_local_path "/tmp" b k :=
              remove_eq_of_mem_handlerOps cfg w b k wh a p
                (mem_of_mem_takeWhile hcmem)
            subst hpeq
            have hd : (handlerOps cfg w b k wh a).dropWhile (fun c => !raises w c) = [] :=
              dropWhile_nil_of_last_mem_takeWhile (handlerPre cfg w b k wh a) _
                (remove_not_mem_handlerPre cfg w b k wh a _) hcmem
            exact hne (by simp [handlerRun, runOutcome, hd])
        simp only [handlerRun] at hcr hclean
        simp [artifactExistsAtEnd, handlerRun, hcr, hclean]

/-- C1 counterexample: a run in which the fetch step created the artifact
and the scan call then raised: the invocation returns with the artifact
still on disk, contradicting the claim that the path never survives an
invocation. -/
theorem C1_counterexample :
    artifactCreated (lambda_handler cfgX wScanFails eFull) = true
    ∧ artifactExistsAtEnd (lambda_handler cfgX wScanFails eFull) = true
    ∧ (lambda_handler cfgX wScanFails eFull).outcome
        = .error (.callError (Call.scanFile "/tmp/b/k")) :=
  ⟨by decide, by decide, by decide⟩

theorem C1_witness : artifactExistsAtEnd (lambda_handler cfgX wOk eFull) = false :=
  (C1_cleanup_only_on_success cfgX wOk eFull).1 (by decide)

/-- C4 (amended): the metrics sink is invoked last among the sinks,
unconditionally, with the environment tag, bucket, key and verdict status —
on every normally-returning run the trace ends with the metrics call
followed only by the cleanup call, and the metrics call appears nowhere
earlier.  However, a raised exception in the metrics sink is fatal and does
prevent the local-artifact cleanup step from running: when the metrics call
raises, no removal call is in the trace and the invocation ends in error. -/
theorem C4_metrics_last_and_failure_fatal (cfg : Config) (w : World) (e : Event) :
    (w.metricsOk = false →
      cleanupRan (lambda_handler cfg w e) = false
      ∧ (lambda_handler cfg w e).outcome ≠ Outcome.ok)
    ∧ (∀ b k wh a, event_object e = Res.ok (b, k) → event_webhook e = Res.ok (wh, a) →
        (lambda_handler cfg w e).outcome = Outcome.ok →
        ∃ t, (lambda_handler cfg w e).trace
            = t ++ [Call.metricsSend cfg.env b k w.scanResult.1,
                    Call.removeFile (download_local_path "/tmp" b k)]
          ∧ Call.metricsSend cfg.env b k w.scanResult.1 ∉ t) := by
  constructor
  · intro hm
    cases hobj : event_object e with
    | err er =>
      rw [lambda_handler_decode_err cfg w e er hobj]
      exact ⟨by simp [cleanupRan], by intro h; cases h⟩
    | ok bk =>
      obtain ⟨b, k⟩ := bk
      cases hwh : event_webhook e with
      | err er =>
        rw [lambda_handler_webhook_err cfg w e (b, k) er hobj hwh]
        exact ⟨by simp [cleanupRan], by intro h; cases h⟩
      | ok wa =>
        obtain ⟨wh, a⟩ := wa
        have hlh : lambda_handler cfg w e = handlerRun cfg w b k wh a := by
          unfold lambda_handler; rw [hobj, hwh]
        rw [hlh]
        have hnotok : runOutcome w (handlerOps cfg w b k wh a) ≠ .ok := by
          intro hok
          have := not_raises_of_ok w _ hok _ (metrics_mem_handlerOps cfg w b k wh a)
          simp [raises, hm] at this
        constructor
        · by_contra hcl
          rw [Bool.not_eq_false] at hcl
          simp only [cleanupRan, handlerRun, List.any_eq_true] at hcl
          obtain ⟨c, hcmem, hrc⟩ := hcl
          cases c <;> simp [isRemoveCall] at hrc
          case removeFile p =>
            have hpeq : p = download_local_path "/tmp" b k :=
              remove_eq_of_mem_handlerOps cfg w b k wh a p
                (mem_of_mem_takeWhile hcmem)
            subst hpeq
            have hd : (handlerOps cfg w b k wh a).dropWhile (fun c => !raises w c) = [] :=
              dropWhile_nil_of_last_mem_takeWhile (handlerPre cfg w b k wh a) _
                (remove_not_mem_handlerPre cfg w b k wh a _) hcmem
            exact hnotok ((runOutcome_ok_iff w _).mpr hd)
        · exact hnotok
  · intro b k wh a hobj hwh hok
    have hlh : lambda_handler cfg w e = handlerRun cfg w b k wh a := by
      unfold lambda_handler; rw [hobj, hwh]
    rw [hlh] at hok ⊢
    have htr : runTrace w (handlerOps cfg w b k wh a) = handlerOps cfg w b k wh a :=
      runTrace_eq_of_ok w _ hok
    refine ⟨handlerSinks cfg w b k wh a, ?_, ?_⟩
    · show runTrace w (handlerOps cfg w b k wh a) = _
      rw [htr]
      simp [handlerOps, handlerPre]
    · exact metrics_not_mem_handlerSinks cfg w b k wh a cfg.env b k w.scanResult.1

/-- C4 counterexample: a run in which every call succeeds except the metrics
call: the metrics exception propagates, the invocation ends in error, no
cleanup call runs, and the artifact is still on disk — contradicting the
claim that a metrics-sink failure is never fatal and never blocks cleanup. -/
theorem C4_counterexample :
    cleanupRan (lambda_handler cfgX wMetricsFails eFull) = false
    ∧ (lambda_handler cfgX wMetricsFails eFull).outcome
        = .error (.callError (Call.metricsSend "prod" "b" "k" "CLEAN"))
    ∧ artifactExistsAtEnd (lambda_handler cfgX wMetricsFails eFull) = true :=
  ⟨by decide, by decide, by decide⟩

theorem C4_witness :
    ∃ t, (lambda_handler cfgX wOk eFull).trace
        = t ++ [Call.metricsSend cfgX.env "b" "k" wOk.scanResult.1,
                Call.removeFile (download_local_path "/tmp" "b" "k")]
      ∧ Call.metricsSend cfgX.env "b" "k" wOk.scanResult.1 ∉ t :=
  (C4_metrics_last_and_failure_fatal cfgX wOk eFull).2 "b" "k" "https://x/antivirus" "tok"
    (by decide) (by decide) (by decide)

/-- C5: verdict consistency.  In every invocation, each sink call in the
trace that receives a verdict status (metadata copy, tag write, topic
publish, webhook result, metrics) receives exactly the scan engine's result
string, unchanged; the trace contains at most one scan call; and a sink can
only receive a verdict after the scan call appears in the trace. -/
theorem C5_verdict_consistency (cfg : Config) (w : World) (e : Event) :
    (∀ c ∈ (lambda_handler cfg w e).trace, ∀ s, statusOf c = some s → s = w.scanResult.1)
    ∧ (lambda_handler cfg w e).trace.countP isScanCall ≤ 1
    ∧ (∀ c ∈ (lambda_handler cfg w e).trace, statusOf c ≠ none →
        ∃ p, Call.scanFile p ∈ (lambda_handler cfg w e).trace) := by
  cases hobj : event_object e with
  | err er =>
    rw [lambda_handler_decode_err cfg w e er hobj]
    exact ⟨by simp, by simp, by simp⟩
  | ok bk =>
    obtain ⟨b, k⟩ := bk
    cases hwh : event_webhook e with
    | err er =>
      rw [lambda_handler_webhook_err cfg w e (b, k) er hobj hwh]
      exact ⟨by simp, by simp, by simp⟩
    | ok wa =>
      obtain ⟨wh, a⟩ := wa
      have hlh : lambda_handler cfg w e = handlerRun cfg w b k wh a := by
        unfold lambda_handler; rw [hobj, hwh]
      rw [hlh]
      refine ⟨?_, ?_, ?_⟩
      · intro c hc s hs
        exact statusOf_handlerOps cfg w b k wh a c (mem_of_mem_takeWhile hc) s hs
      · show (runTrace w (handlerOps cfg w b k wh a)).countP isScanCall ≤ 1
        have h1 := countP_takeWhile_le (fun c => !raises w c) isScanCall
          (handlerOps cfg w b k wh a)
        rw [countP_scan_handlerOps cfg w b k wh a] at h1
        exact h1
      · intro c hc hsome
        refine ⟨download_local_path "/tmp" b k, ?_⟩
        have hc' : c ∈ runTrace w (((webhook_scan_started_fn wh a).toList
            ++ [Call.download b k (download_local_path "/tmp" b k),
                Call.updateDefs cfg.defsBucket cfg.defsPath])
            ++ Call.scanFile (download_local_path "/tmp" b k)
              :: ((if cfg.updateMetadata then [Call.copyMetadata b k w.scanResult.1] else [])
                  ++ [Call.getTags b k,
                      Call.putTags b k w.scanResult.1
                        (set_av_tags_tagset w.currentTags w.scanResult.1 w.tagTime)]
                  ++ (sns_scan_results_fn cfg.snsArn b k w.scanResult.1).toList
                  ++ (webhook_scan_results_fn k w.scanResult.1 w.scanResult.2 wh a).toList
                  ++ [Call.metricsSend cfg.env b k w.scanResult.1,
                      Call.removeFile (download_local_path "/tmp" b k)])) := by
          rw [← handlerOps_split_scan cfg w b k wh a]
          exact hc
        have hsplit := mem_takeWhile_split (fun c => !raises w c) _ _ _ c hc'
        rcases hsplit with hmem | hscan
        · exact absurd (statusOf_none_before_scan cfg b k wh a c hmem) hsome
        · show Call.scanFile _ ∈ runTrace w (handlerOps cfg w b k wh a)
          rw [handlerOps_split_scan cfg w b k wh a]
          exact hscan

theorem C5_witness :
    ("CLEAN" : String) = wOk.scanResult.1
    ∧ ∃ p, Call.scanFile p ∈ (lambda_handler cfgX wOk eFull).trace :=
  ⟨(C5_verdict_consistency cfgX wOk eFull).1 (Call.metricsSend "prod" "b" "k" "CLEAN")
      (by decide) "CLEAN" (by decide),
   (C5_verdict_consistency cfgX wOk eFull).2.2 (Call.metricsSend "prod" "b" "k" "CLEAN")
      (by decide) (by decide)⟩

theorem event_webhook_ok_inv (e : Event) (wh a : String)
    (h : event_webhook e = Res.ok (wh, a)) :
    ∃ m rest raw, e.records = m :: rest ∧ m.webhook = some raw ∧ m.auth = some a
      ∧ wh = replace_service (unquote_plus raw) ∧ wh ≠ "" := by
  cases hrec : e.records with
  | nil =>
    have : event_webhook e = Res.err .indexError := by simp [event_webhook, hrec]
    rw [this] at h; cases h
  | cons m rest =>
    cases hw : m.webhook with
    | none =>
      have : event_webhook e = Res.err (.keyError "webhook") := by
        simp [event_webhook, hrec, hw]
      rw [this] at h; cases h
    | some raw =>
      cases ha : m.auth with
      | none =>
        have : event_webhook e = Res.err (.keyError "auth") := by
          simp [event_webhook, hrec, hw, ha]
        rw [this] at h; cases h
      | some auth =>
        by_cases hz : replace_service (unquote_plus raw) = ""
        · have : event_webhook e
              = Res.err (.exception "Unable to retrieve webhook from event.") := by
            simp [event_webhook, hrec, hw, ha, hz]
          rw [this] at h; cases h
        · have heq : event_webhook e
              = Res.ok (replace_service (unquote_plus raw), auth) := by
            simp [event_webhook, hrec, hw, ha, hz]
          rw [heq] at h
          injection h with h2
          injection h2 with hwh2 ha2
          exact ⟨m, rest, raw, rfl, hw, ha2 ▸ ha, hwh2.symm, hwh2.symm ▸ hz⟩

/-- C8: whenever a webhook URL is decoded from the event, the webhook-start
POST — empty payload, with the authorization credential — is the first
external call the invocation attempts, before the object download and before
any scan-engine call; and the URL used is the percent-plus-decoded raw
webhook with every service placeholder token rewritten to the literal
service identifier. -/
theorem C8_webhook_start_first (cfg : Config) (w : World) (e : Event)
    (wh a b k : String) (h1 : event_object e = Res.ok (b, k))
    (h2 : event_webhook e = Res.ok (wh, a)) :
    (attempts (lambda_handler cfg w e)).head? = some (Call.post wh [] a)
    ∧ ∃ m rest raw, e.records = m :: rest ∧ m.webhook = some raw
        ∧ wh = replace_service (unquote_plus raw) := by
  obtain ⟨m, rest, raw, hrec, hw, _, hwh, hne⟩ := event_webhook_ok_inv e wh a h2
  have hlh : lambda_handler cfg w e = handlerRun cfg w b k wh a := by
    unfold lambda_handler; rw [h1, h2]
  rw [hlh]
  constructor
  · have hops : handlerOps cfg w b k wh a = Call.post wh [] a ::
        ([Call.download b k (download_local_path "/tmp" b k),
          Call.updateDefs cfg.defsBucket cfg.defsPath,
          Call.scanFile (download_local_path "/tmp" b k)]
         ++ (if cfg.updateMetadata then [Call.copyMetadata b k w.scanResult.1] else [])
         ++ [Call.getTags b k,
             Call.putTags b k w.scanResult.1
               (set_av_tags_tagset w.currentTags w.scanResult.1 w.tagTime)]
         ++ (sns_scan_results_fn cfg.snsArn b k w.scanResult.1).toList
         ++ (webhook_scan_results_fn k w.scanResult.1 w.scanResult.2 wh a).toList
         ++ [Call.metricsSend cfg.env b k w.scanResult.1,
             Call.removeFile (download_local_path "/tmp" b k)]) := by
      simp [handlerOps, handlerPre, handlerSinks, webhook_scan_started_fn, hne]
    by_cases hp : w.postOk
    · simp [attempts, handlerRun, runTrace, runOutcome, hops, List.takeWhile_cons,
        List.dropWhile_cons, raises, hp]
    · simp [attempts, handlerRun, runTrace, runOutcome, hops, List.takeWhile_cons,
        List.dropWhile_cons, raises, hp]
  · exact ⟨m, rest, raw, hrec, hw, hwh⟩

theorem C8_witness :
    (attempts (lambda_handler cfgX wOk eFull)).head?
        = some (Call.post "https://x/antivirus" [] "tok")
    ∧ ∃ m rest raw, eFull.records = m :: rest ∧ m.webhook = some raw
        ∧ ("https://x/antivirus" : String) = replace_service (unquote_plus raw) :=
  C8_webhook_start_first cfgX wOk eFull "https://x/antivirus" "tok" "b" "k"
    (by decide) (by decide)

/-- C2 (amended): the decoder treats the webhook as mandatory, not optional.
When an inbound event has a valid bucket and key but its message lacks the
webhook field, the webhook decode raises a key-lookup error and the whole
invocation fails before any external call — an empty trace, not a no-op run.
The webhook sink functions themselves are no-ops when handed an empty
webhook URL, but the handler never reaches them on such an event. -/
theorem C2_missing_webhook_is_fatal (cfg : Config) (w : World) (m : SnsMessage)
    (rest : List SnsMessage) (b k : String)
    (hobj : event_object ⟨m :: rest⟩ = Res.ok (b, k)) (hw : m.webhook = none) :
    lambda_handler cfg w ⟨m :: rest⟩ = ⟨[], .error (.keyError "webhook")⟩
    ∧ (∀ a, webhook_scan_started_fn "" a = none)
    ∧ (∀ key r o a, webhook_scan_results_fn key r o "" a = none) := by
  refine ⟨?_, fun a => rfl, fun key r o a => rfl⟩
  exact lambda_handler_webhook_err cfg w _ (b, k) _ hobj (by simp [event_webhook, hw])

/-- C2 counterexample: on the event with a valid bucket and key but no
webhook field and no auth field, decoding does not succeed: the webhook
decode raises a key-lookup error and the invocation fails with an empty
trace, contradicting the claim that the absence of the webhook field is
tolerated without error. -/
theorem C2_counterexample :
    event_webhook eNoWebhook = Res.err (PyError.keyError "webhook")
    ∧ lambda_handler cfgX wOk eNoWebhook = ⟨[], .error (.keyError "webhook")⟩ :=
  ⟨by decide, by decide⟩

theorem C2_witness :
    lambda_handler cfgY wOk ⟨[⟨some "b", some "k", none, some "t"⟩]⟩
        = ⟨[], .error (.keyError "webhook")⟩
    ∧ (∀ a, webhook_scan_started_fn "" a = none)
    ∧ (∀ key r o a, webhook_scan_results_fn key r o "" a = none) :=
  C2_missing_webhook_is_fatal cfgY wOk ⟨some "b", some "k", none, some "t"⟩ [] "b" "k"
    (by decide) rfl

/-- C9: whenever a webhook URL was decoded (it is then nonempty), the
webhook-result PATCH body is exactly: the basename of the key as filename, a
fixed success status, and — when the verdict is the INFECTED string — the
infected flag set with result INFECTED-colon-space followed by the
diagnostic text, otherwise the infected flag clear with result clean.  This
holds for every verdict string (in particular CLEAN, INFECTED and ERROR) and
every diagnostic string. -/
theorem C9_webhook_result_payload (key verdict output webhook auth : String)
    (hw : webhook ≠ "") :
    (verdict = "INFECTED" →
      webhook_scan_results_fn key verdict output webhook auth
        = some (.patch webhook verdict
            ⟨basename key, true, "success", "INFECTED: " ++ output⟩ auth))
    ∧ (verdict ≠ "INFECTED" →
      webhook_scan_results_fn key verdict output webhook auth
        = some (.patch webhook verdict
            ⟨basename key, false, "success", "clean"⟩ auth)) := by
  constructor
  · intro hi
    simp [webhook_scan_results_fn, hw, hi]
  · intro hi
    simp [webhook_scan_results_fn, hw, hi]

theorem C9_witness :
    webhook_scan_results_fn "a/b.txt" "INFECTED" "Eicar-Test-Signature"
        "https://x/antivirus" "tok"
      = some (.patch "https://x/antivirus" "INFECTED"
          ⟨"b.txt", true, "success", "INFECTED: Eicar-Test-Signature"⟩ "tok") :=
  (C9_webhook_result_payload "a/b.txt" "INFECTED" "Eicar-Test-Signature"
    "https://x/antivirus" "tok" (by decide)).1 rfl
